import Mathlib

/-
  Verification of the superman-detector travel-anomaly service.

  The file embeds `detector.go` (the only source file of the repository)
  into Lean and proves the claims of the specification against it.  The
  packages `detector/models` and `detector/travel` are consumed by
  `detector.go` but their sources are not part of the repository snapshot;
  their definitions below are modelled from the specification (each such
  definition carries a doc comment starting with "Modelled from the spec:").
-/

open Real

/-- Mirrors the `loginRecord` struct of detector.go (lines 22-27): the decoded
POST body of an authentication event. -/
structure loginRecord where
  Username : String
  UnixTimestamp : ℤ
  EventUUID : String
  IPAddr : String

/-- Mirrors the `currentGeo` struct of detector.go (lines 29-33): the location
resolved for the new event. -/
structure currentGeo where
  Lat : ℝ
  Lon : ℝ
  Radius : ℕ

/-- Mirrors the `ipAccess` struct of detector.go (lines 35-42): the wire
representation of an adjacent access, with `Speed` a Go `int`. -/
structure ipAccess where
  IP : String
  Speed : ℤ
  Lat : ℝ
  Lon : ℝ
  Radius : ℕ
  Timestamp : ℤ

namespace models

/-- Modelled from the spec: the stored login row of the missing
`detector/models` package; its fields are exactly the ones assigned in
`HandlePost` (detector.go lines 105-113) and described by the LoginEvent data
model of the spec. -/
structure Login where
  Username : String
  UnixTimestamp : ℤ
  EventUUID : String
  IPAddr : String
  Lat : ℝ
  Lon : ℝ
  Radius : ℕ

/-- Modelled from the spec: `insert(event)` of the Login Store contract
(`models.InsertLogin` is not under src/); the event is durably recorded. -/
def InsertLogin (db : List Login) (l : Login) : List Login := db ++ [l]

/-- Modelled from the spec: `queryByUsername(username) -> ordered sequence of
LoginEvent, ascending by timestamp` (`models.LoginsByUsername` is not under
src/). -/
def LoginsByUsername (db : List Login) (u : String) : List Login :=
  List.insertionSort (fun a b => a.UnixTimestamp ≤ b.UnixTimestamp)
    (db.filter (fun l => l.Username == u))

/-- Modelled from the spec: the "previous" half of the Adjacency Selector:
the element of the history with the largest timestamp strictly less than the
new event's timestamp, if any (`models.GetAdjacentLogins` is not under
src/). -/
def bestPrev (newEvent : Login) : List Login → Option Login
  | [] => none
  | e :: rest =>
    let r := bestPrev newEvent rest
    if e.UnixTimestamp < newEvent.UnixTimestamp then
      match r with
      | none => some e
      | some b => if b.UnixTimestamp < e.UnixTimestamp then some e else some b
    else r

/-- Modelled from the spec: the "next" half of the Adjacency Selector: the
element of the history with the smallest timestamp strictly greater than the
new event's timestamp, if any. -/
def bestNext (newEvent : Login) : List Login → Option Login
  | [] => none
  | e :: rest =>
    let r := bestNext newEvent rest
    if newEvent.UnixTimestamp < e.UnixTimestamp then
      match r with
      | none => some e
      | some b => if e.UnixTimestamp < b.UnixTimestamp then some e else some b
    else r

/-- Modelled from the spec: `models.GetAdjacentLogins` (not under src/), the
Adjacency Selector returning the nearest preceding and nearest following
events of the new event, strict inequality on timestamps only. -/
def GetAdjacentLogins (history : List Login) (newEvent : Login) :
    Option Login × Option Login :=
  (bestPrev newEvent history, bestNext newEvent history)

end models

namespace travel

/-- Modelled from the spec: great-circle (haversine) distance in kilometers
between two latitude/longitude points, with mean Earth radius 6371 km
(`travel.Distance` is not under src/). -/
noncomputable def Distance (lat1 lon1 lat2 lon2 : ℝ) : ℝ :=
  let phi1 := lat1 * Real.pi / 180
  let phi2 := lat2 * Real.pi / 180
  let dphi := (lat2 - lat1) * Real.pi / 180
  let dlam := (lon2 - lon1) * Real.pi / 180
  let h := Real.sin (dphi / 2) ^ 2 +
    Real.cos phi1 * Real.cos phi2 * Real.sin (dlam / 2) ^ 2
  2 * 6371 * Real.arcsin (Real.sqrt h)

/-- The largest value of a 64-bit Go `int`, used to model the spec's
"unbounded/maximal" speed for the zero-elapsed-time, non-zero-distance
case. -/
def maxGoInt : ℤ := 9223372036854775807

/-- Modelled from the spec: implied speed in km/h from a distance in km and
two unix timestamps; elapsed time is the non-negative magnitude of the
timestamp difference in seconds, converted to hours (`travel.Speed` is not
under src/; it returns a Go `int`, so the real-valued quotient is converted by
Go's float-to-int truncation, which on the non-negative quotient is the
floor).  Zero-elapsed-time policy of the spec: zero distance gives speed 0,
non-zero distance gives the maximal speed. -/
noncomputable def Speed (dist : ℝ) (t1 t2 : ℤ) : ℤ :=
  let secs : ℤ := |t2 - t1|
  if secs = 0 then (if dist = 0 then 0 else maxGoInt)
  else ⌊dist / ((secs : ℝ) / 3600)⌋

end travel

/-- Mirrors `getTravelSpeed` of detector.go (lines 79-84): distance between
the two logins fed to the speed computation with the two timestamps. -/
noncomputable def getTravelSpeed (postLogin prevLogin : models.Login) : ℤ :=
  let dist := travel.Distance postLogin.Lat postLogin.Lon prevLogin.Lat prevLogin.Lon
  travel.Speed dist prevLogin.UnixTimestamp postLogin.UnixTimestamp

/-- Mirrors the classification of detector.go (lines 134-138 and 152-156):
a speed is flagged suspicious exactly when it is strictly greater than 500. -/
def suspiciousFlag (speed : ℤ) : Bool := decide (500 < speed)

/-- The exact regular expression text of detector.go line 51. -/
def ipPattern : String := "^(?:(?:^|\\.)(?:2(?:5[0-5]|[0-4]\\d)|1?\\d?\\d)){4}$"

/-- The RE2 class `\d`: an ASCII decimal digit. -/
def isDigitChar (c : Char) : Bool := decide ('0' ≤ c) && decide (c ≤ '9')

/-- The octet alternation `2(?:5[0-5]|[0-4]\d)|1?\d?\d` of the pattern of
detector.go line 51, as a predicate on the exact character list an occurrence
consumes. -/
def isOctet : List Char → Bool
  | [c] => isDigitChar c
  | [b, c] => isDigitChar b && isDigitChar c
  | [a, b, c] =>
      (decide (a = '1') && isDigitChar b && isDigitChar c) ||
      (decide (a = '2') && decide ('0' ≤ b) && decide (b ≤ '4') && isDigitChar c) ||
      (decide (a = '2') && decide (b = '5') && decide ('0' ≤ c) && decide (c ≤ '5'))
  | _ => false

/-- Matcher for `n` repetitions of the group `(?:(?:^|\.)(?:octet))` of the
pattern of detector.go line 51 at a position after the start of the text,
where the zero-width `^` alternative cannot apply: each repetition consumes a
dot and then an octet of one, two or three characters, and the text must be
exhausted at the end (the closing `$`). -/
def tailGroups : ℕ → List Char → Bool
  | 0, s => s.isEmpty
  | _+1, [] => false
  | n+1, c :: rest =>
      c == '.' &&
      ((isOctet (rest.take 1) && tailGroups n (rest.drop 1)) ||
       (isOctet (rest.take 2) && tailGroups n (rest.drop 2)) ||
       (isOctet (rest.take 3) && tailGroups n (rest.drop 3)))

/-- Mirrors `isValidIP` of detector.go (lines 50-56): whether the anchored
RE2 pattern of line 51 matches the whole input.  At position 0 the first
repetition may use the zero-width `^` alternative (leaving a bare octet) or
the `\.` alternative (consuming a leading dot); the remaining three
repetitions each consume a dot and an octet. -/
def isValidIP (ip : String) : Bool :=
  let cs := ip.data
  (isOctet (cs.take 1) && tailGroups 3 (cs.drop 1)) ||
  (isOctet (cs.take 2) && tailGroups 3 (cs.drop 2)) ||
  (isOctet (cs.take 3) && tailGroups 3 (cs.drop 3)) ||
  tailGroups 4 cs

/-- Mirrors `validateInputs` of detector.go (lines 58-61). -/
def validateInputs (lr : loginRecord) : Bool :=
  isValidIP lr.IPAddr && decide (0 < lr.Username.length) &&
    decide (0 < lr.EventUUID.length)

/-- Scanner checking the syntactic well-formedness of a regular-expression
text: backslash escapes limited to the forms used by the pattern of
detector.go, balanced groups, and balanced character classes.  First flag is
the open-group depth, second whether the scanner is inside a class. -/
def regexScan : List Char → ℕ → Bool → Bool
  | [], depth, inClass => decide (depth = 0) && !inClass
  | '\\' :: c :: rest, depth, inClass =>
      (c == '.' || c == 'd' || c == '\\') && regexScan rest depth inClass
  | ['\\'], _, _ => false
  | c :: rest, depth, true =>
      if c == ']' then regexScan rest depth false else regexScan rest depth true
  | '[' :: rest, depth, false => regexScan rest depth true
  | ']' :: _, _, false => false
  | '(' :: rest, depth, false => regexScan rest (depth + 1) false
  | ')' :: rest, dp, false =>
      (match dp with
       | 0 => false
       | d + 1 => regexScan rest d false)
  | _ :: rest, depth, false => regexScan rest depth false

/-- Whether a regular-expression text is syntactically well formed. -/
def regexWellFormed (p : String) : Bool := regexScan p.data 0 false

/-- Modelled from the spec and the Go regexp contract: `regexp.Match` of
detector.go line 51 returns an error exactly when the pattern text fails to
compile; compilation is modelled by the syntactic well-formedness check.  The
matching semantics of the fixed pattern is `isValidIP`. -/
def regexpMatchIP (ip : String) : Except String Bool :=
  if regexWellFormed ipPattern then Except.ok (isValidIP ip)
  else Except.error "error parsing regexp"

/-- Mirrors `isValidIP` of detector.go including its error branch (lines
52-54): a `panic` on a match error is modelled as `none`. -/
def isValidIPChecked (ip : String) : Option Bool :=
  match regexpMatchIP ip with
  | Except.ok b => some b
  | Except.error _ => none

/-- Mirrors the `models.Login` row assembled in `HandlePost` (detector.go
lines 105-113) from the request body and the resolved location. -/
def mkLoginRow (lr : loginRecord) (cg : currentGeo) : models.Login :=
  { Username := lr.Username, UnixTimestamp := lr.UnixTimestamp,
    EventUUID := lr.EventUUID, IPAddr := lr.IPAddr,
    Lat := cg.Lat, Lon := cg.Lon, Radius := cg.Radius }

/-- The JSON object assembled by `HandlePost` (detector.go lines 127-166):
`currentGeo` is always present; each verdict flag and its access record are
present only when the corresponding adjacent login exists. -/
structure Response where
  currentGeo : currentGeo
  travelToCurrentGeoSuspicious : Option Bool
  precedingIpAccess : Option ipAccess
  travelFromCurrentGeoSuspicious : Option Bool
  subsequentIpAccess : Option ipAccess

/-- The response assembly of `HandlePost` (detector.go lines 127-166) for a
stored row, its resolved location and the fetched history: each verdict flag
and its access record are attached only when the corresponding adjacent login
exists. -/
noncomputable def respOf (row : models.Login) (cg : currentGeo)
    (allLogins : List models.Login) : Response :=
  let prev := (models.GetAdjacentLogins allLogins row).1
  let next := (models.GetAdjacentLogins allLogins row).2
  { currentGeo := cg
    travelToCurrentGeoSuspicious :=
      prev.map (fun p => suspiciousFlag (getTravelSpeed p row))
    precedingIpAccess := prev.map (fun p =>
      { IP := p.IPAddr, Speed := getTravelSpeed p row, Lat := p.Lat,
        Lon := p.Lon, Radius := p.Radius, Timestamp := p.UnixTimestamp })
    travelFromCurrentGeoSuspicious :=
      next.map (fun n => suspiciousFlag (getTravelSpeed n row))
    subsequentIpAccess := next.map (fun n =>
      { IP := n.IPAddr, Speed := getTravelSpeed n row, Lat := n.Lat,
        Lon := n.Lon, Radius := n.Radius, Timestamp := n.UnixTimestamp }) }

/-- Mirrors `HandlePost` of detector.go (lines 89-172) with the collaborators
passed explicitly: the geo resolver as a function and the login store as the
list of stored rows.  A `panic` (invalid input, line 73, or geo resolution
failure, line 96) aborts the request before anything is persisted, modelled by
returning the unchanged store and no response. -/
noncomputable def HandlePost (geoCity : String → Option currentGeo)
    (db : List models.Login) (lr : loginRecord) :
    List models.Login × Option Response :=
  if validateInputs lr = false then (db, none) else
  match geoCity lr.IPAddr with
  | none => (db, none)
  | some cg =>
    let loginRow := mkLoginRow lr cg
    let db2 := models.InsertLogin db loginRow
    (db2, some (respOf loginRow cg (models.LoginsByUsername db2 loginRow.Username)))

/-- Modelled from the spec: the exact real-valued speed `distance_km /
elapsed_hours` of a pair of logins, before the conversion to a Go `int`. -/
noncomputable def exactSpeed (postLogin prevLogin : models.Login) : ℝ :=
  travel.Distance postLogin.Lat postLogin.Lon prevLogin.Lat prevLogin.Lon /
    (((|postLogin.UnixTimestamp - prevLogin.UnixTimestamp| : ℤ) : ℝ) / 3600)

lemma Distance_symm (lat1 lon1 lat2 lon2 : ℝ) :
    travel.Distance lat1 lon1 lat2 lon2 = travel.Distance lat2 lon2 lat1 lon1 := by
  simp only [travel.Distance]
  have e1 : ((lat1 - lat2) * Real.pi / 180) / 2 =
      -(((lat2 - lat1) * Real.pi / 180) / 2) := by ring
  have e2 : ((lon1 - lon2) * Real.pi / 180) / 2 =
      -(((lon2 - lon1) * Real.pi / 180) / 2) := by ring
  rw [e1, e2, Real.sin_neg, Real.sin_neg, neg_sq, neg_sq]
  ring_nf

lemma Distance_self (lat lon : ℝ) : travel.Distance lat lon lat lon = 0 := by
  simp [travel.Distance]

lemma Speed_symm (d : ℝ) (t1 t2 : ℤ) : travel.Speed d t1 t2 = travel.Speed d t2 t1 := by
  simp only [travel.Speed]
  rw [abs_sub_comm]

/-- C5: the speed computation is symmetric in its two event arguments,
because the haversine distance is symmetric (with distance of a point to
itself zero) and the elapsed time is the non-negative magnitude of the
timestamp difference. -/
theorem c5_getTravelSpeed_symmetric :
    (∀ a b : models.Login, getTravelSpeed a b = getTravelSpeed b a) ∧
    (∀ lat1 lon1 lat2 lon2 : ℝ,
      travel.Distance lat1 lon1 lat2 lon2 = travel.Distance lat2 lon2 lat1 lon1) ∧
    (∀ lat lon : ℝ, travel.Distance lat lon lat lon = 0) := by
  refine ⟨fun a b => ?_, Distance_symm, Distance_self⟩
  simp only [getTravelSpeed]
  rw [Distance_symm, Speed_symm]

/-- C3: when the two events of a pair share a timestamp no division by zero
occurs: non-zero distance is classified suspicious (maximal speed), and zero
distance gives speed 0, not suspicious. -/
theorem c3_zero_elapsed_policy (a b : models.Login)
    (h : a.UnixTimestamp = b.UnixTimestamp) :
    (travel.Distance a.Lat a.Lon b.Lat b.Lon ≠ 0 →
      suspiciousFlag (getTravelSpeed a b) = true) ∧
    (travel.Distance a.Lat a.Lon b.Lat b.Lon = 0 →
      getTravelSpeed a b = 0 ∧ suspiciousFlag (getTravelSpeed a b) = false) := by
  have hz : |a.UnixTimestamp - b.UnixTimestamp| = 0 := by rw [h]; simp
  constructor
  · intro hd
    simp only [getTravelSpeed, travel.Speed, hz, if_pos rfl, if_neg hd]
    simp [suspiciousFlag, travel.maxGoInt]
  · intro hd
    simp only [getTravelSpeed, travel.Speed, hz, if_pos rfl, if_pos hd]
    simp [suspiciousFlag]

def loginZeroA : models.Login := ⟨"alice", 1000, "uuid-a", "1.2.3.4", 0, 0, 0⟩

def loginZeroB : models.Login := ⟨"alice", 1000, "uuid-b", "5.6.7.8", 0, 0, 0⟩

/-- Witness for C3 on a concrete pair with identical timestamps and identical
locations: speed 0, not suspicious. -/
theorem c3_zero_elapsed_policy_witness :
    loginZeroA.UnixTimestamp = loginZeroB.UnixTimestamp ∧
    getTravelSpeed loginZeroA loginZeroB = 0 ∧
    suspiciousFlag (getTravelSpeed loginZeroA loginZeroB) = false :=
  ⟨rfl, (c3_zero_elapsed_policy loginZeroA loginZeroB rfl).2 (Distance_self 0 0)⟩

/-- C8: if the geo resolver cannot resolve the new event's address, the
handler aborts before anything happens: the store is unchanged and no
response (hence no verdicts) is produced. -/
theorem c8_geo_failure_aborts (geoCity : String → Option currentGeo)
    (db : List models.Login) (lr : loginRecord)
    (h : geoCity lr.IPAddr = none) :
    HandlePost geoCity db lr = (db, none) := by
  by_cases hv : validateInputs lr = false <;> simp [HandlePost, hv, h]

def lrValid : loginRecord := ⟨"alice", 1000, "uuid-1", "1.2.3.4"⟩

/-- Witness for C8 on a concrete valid request whose address the resolver
does not know. -/
theorem c8_geo_failure_aborts_witness :
    (fun _ : String => (none : Option currentGeo)) lrValid.IPAddr = none ∧
    HandlePost (fun _ => none) [] lrValid = ([], none) :=
  ⟨rfl, c8_geo_failure_aborts _ [] lrValid rfl⟩

/-- C10: `isValidIP` is total: its pattern is a fixed well-formed regular
expression, so the match never reports an error and the panicking branch is
unreachable; every input yields a boolean. -/
theorem c10_isValidIP_total (ip : String) :
    isValidIPChecked ip = some (isValidIP ip) := by
  have hwf : regexWellFormed ipPattern = true := by decide
  simp [isValidIPChecked, regexpMatchIP, hwf]

lemma bestPrev_eq_none {n : models.Login} {l : List models.Login} :
    models.bestPrev n l = none ↔
      ∀ e ∈ l, ¬ e.UnixTimestamp < n.UnixTimestamp := by
  induction l with
  | nil => simp [models.bestPrev]
  | cons e rest ih =>
    simp only [models.bestPrev]
    by_cases he : e.UnixTimestamp < n.UnixTimestamp
    · rw [if_pos he]
      rcases hr : models.bestPrev n rest with _ | b <;> dsimp only
      · constructor
        · intro hcon; exact Option.noConfusion hcon
        · intro hall
          exact absurd he (hall e (List.mem_cons_self e rest))
      · constructor
        · intro hcon
          by_cases hbe : b.UnixTimestamp < e.UnixTimestamp
          · rw [if_pos hbe] at hcon; exact Option.noConfusion hcon
          · rw [if_neg hbe] at hcon; exact Option.noConfusion hcon
        · intro hall
          exact absurd he (hall e (List.mem_cons_self e rest))
    · rw [if_neg he, ih]
      constructor
      · intro hall x hx
        rcases List.mem_cons.mp hx with rfl | hx
        · exact he
        · exact hall x hx
      · intro hall x hx
        exact hall x (List.mem_cons_of_mem _ hx)

lemma bestPrev_spec {n : models.Login} {l : List models.Login} :
    ∀ {p : models.Login}, models.bestPrev n l = some p →
      p ∈ l ∧ p.UnixTimestamp < n.UnixTimestamp ∧
        ∀ e ∈ l, e.UnixTimestamp < n.UnixTimestamp →
          e.UnixTimestamp ≤ p.UnixTimestamp := by
  induction l with
  | nil => intro p h; simp [models.bestPrev] at h
  | cons e rest ih =>
    intro p h
    simp only [models.bestPrev] at h
    by_cases he : e.UnixTimestamp < n.UnixTimestamp
    · rw [if_pos he] at h
      rcases hr : models.bestPrev n rest with _ | b <;> rw [hr] at h <;> dsimp only at h
      · injection h with h; subst h
        refine ⟨List.mem_cons_self e rest, he, ?_⟩
        intro x hx hxlt
        rcases List.mem_cons.mp hx with rfl | hx
        · exact le_refl _
        · exact absurd hxlt ((bestPrev_eq_none.mp hr) x hx)
      · obtain ⟨hbmem, hblt, hbmax⟩ := ih hr
        by_cases hbe : b.UnixTimestamp < e.UnixTimestamp
        · rw [if_pos hbe] at h
          injection h with h; subst h
          refine ⟨List.mem_cons_self e rest, he, ?_⟩
          intro x hx hxlt
          rcases List.mem_cons.mp hx with rfl | hx
          · exact le_refl _
          · exact le_trans (hbmax x hx hxlt) (le_of_lt hbe)
        · rw [if_neg hbe] at h
          injection h with h; subst h
          refine ⟨List.mem_cons_of_mem _ hbmem, hblt, ?_⟩
          intro x hx hxlt
          rcases List.mem_cons.mp hx with rfl | hx
          · exact le_of_not_lt hbe
          · exact hbmax x hx hxlt
    · rw [if_neg he] at h
      obtain ⟨hbmem, hblt, hbmax⟩ := ih h
      refine ⟨List.mem_cons_of_mem _ hbmem, hblt, ?_⟩
      intro x hx hxlt
      rcases List.mem_cons.mp hx with rfl | hx
      · exact absurd hxlt he
      · exact hbmax x hx hxlt

lemma bestNext_eq_none {n : models.Login} {l : List models.Login} :
    models.bestNext n l = none ↔
      ∀ e ∈ l, ¬ n.UnixTimestamp < e.UnixTimestamp := by
  induction l with
  | nil => simp [models.bestNext]
  | cons e rest ih =>
    simp only [models.bestNext]
    by_cases he : n.UnixTimestamp < e.UnixTimestamp
    · rw [if_pos he]
      rcases hr : models.bestNext n rest with _ | b <;> dsimp only
      · constructor
        · intro hcon; exact Option.noConfusion hcon
        · intro hall
          exact absurd he (hall e (List.mem_cons_self e rest))
      · constructor
        · intro hcon
          by_cases hbe : e.UnixTimestamp < b.UnixTimestamp
          · rw [if_pos hbe] at hcon; exact Option.noConfusion hcon
          · rw [if_neg hbe] at hcon; exact Option.noConfusion hcon
        · intro hall
          exact absurd he (hall e (List.mem_cons_self e rest))
    · rw [if_neg he, ih]
      constructor
      · intro hall x hx
        rcases List.mem_cons.mp hx with rfl | hx
        · exact he
        · exact hall x hx
      · intro hall x hx
        exact hall x (List.mem_cons_of_mem _ hx)

lemma bestNext_spec {n : models.Login} {l : List models.Login} :
    ∀ {q : models.Login}, models.bestNext n l = some q →
      q ∈ l ∧ n.UnixTimestamp < q.UnixTimestamp ∧
        ∀ e ∈ l, n.UnixTimestamp < e.UnixTimestamp →
          q.UnixTimestamp ≤ e.UnixTimestamp := by
  induction l with
  | nil => intro q h; simp [models.bestNext] at h
  | cons e rest ih =>
    intro q h
    simp only [models.bestNext] at h
    by_cases he : n.UnixTimestamp < e.UnixTimestamp
    · rw [if_pos he] at h
      rcases hr : models.bestNext n rest with _ | b <;> rw [hr] at h <;> dsimp only at h
      · injection h with h; subst h
        refine ⟨List.mem_cons_self e rest, he, ?_⟩
        intro x hx hxlt
        rcases List.mem_cons.mp hx with rfl | hx
        · exact le_refl _
        · exact absurd hxlt ((bestNext_eq_none.mp hr) x hx)
      · obtain ⟨hbmem, hblt, hbmin⟩ := ih hr
        by_cases hbe : e.UnixTimestamp < b.UnixTimestamp
        · rw [if_pos hbe] at h
          injection h with h; subst h
          refine ⟨List.mem_cons_self e rest, he, ?_⟩
          intro x hx hxlt
          rcases List.mem_cons.mp hx with rfl | hx
          · exact le_refl _
          · exact le_trans (le_of_lt hbe) (hbmin x hx hxlt)
        · rw [if_neg hbe] at h
          injection h with h; subst h
          refine ⟨List.mem_cons_of_mem _ hbmem, hblt, ?_⟩
          intro x hx hxlt
          rcases List.mem_cons.mp hx with rfl | hx
          · exact le_of_not_lt hbe
          · exact hbmin x hx hxlt
    · rw [if_neg he] at h
      obtain ⟨hbmem, hblt, hbmin⟩ := ih h
      refine ⟨List.mem_cons_of_mem _ hbmem, hblt, ?_⟩
      intro x hx hxlt
      rcases List.mem_cons.mp hx with rfl | hx
      · exact absurd hxlt he
      · exact hbmin x hx hxlt

/-- C2: the adjacency selection returns as previous (when present) an element
of the history with the maximum timestamp strictly below the new event's
timestamp, as next (when present) one with the minimum timestamp strictly
above it, and never returns an element whose timestamp equals the new
event's. -/
theorem c2_adjacency_selection (history : List models.Login)
    (newEvent : models.Login) :
    (∀ p, (models.GetAdjacentLogins history newEvent).1 = some p →
      p ∈ history ∧ p.UnixTimestamp < newEvent.UnixTimestamp ∧
        ∀ e ∈ history, e.UnixTimestamp < newEvent.UnixTimestamp →
          e.UnixTimestamp ≤ p.UnixTimestamp) ∧
    (∀ q, (models.GetAdjacentLogins history newEvent).2 = some q →
      q ∈ history ∧ newEvent.UnixTimestamp < q.UnixTimestamp ∧
        ∀ e ∈ history, newEvent.UnixTimestamp < e.UnixTimestamp →
          q.UnixTimestamp ≤ e.UnixTimestamp) ∧
    (∀ e ∈ history, e.UnixTimestamp = newEvent.UnixTimestamp →
      (models.GetAdjacentLogins history newEvent).1 ≠ some e ∧
      (models.GetAdjacentLogins history newEvent).2 ≠ some e) := by
  refine ⟨fun p hp => bestPrev_spec hp, fun q hq => bestNext_spec hq, ?_⟩
  intro e _ hts
  constructor
  · intro hcon
    have := (bestPrev_spec hcon).2.1
    omega
  · intro hcon
    have := (bestNext_spec hcon).2.1
    omega

def histEv1 : models.Login := ⟨"alice", 10, "uuid-h1", "1.1.1.1", 0, 0, 0⟩

def histEv2 : models.Login := ⟨"alice", 20, "uuid-h2", "2.2.2.2", 0, 0, 0⟩

def histEv3 : models.Login := ⟨"alice", 30, "uuid-h3", "3.3.3.3", 0, 0, 0⟩

def histNew : models.Login := ⟨"alice", 20, "uuid-n", "4.4.4.4", 0, 0, 0⟩

/-- Witness for C2 on a concrete history: with timestamps 10, 20, 30 and a
new event at 20, the previous is the event at 10 (not the tying event at
20). -/
theorem c2_adjacency_selection_witness :
    (models.GetAdjacentLogins [histEv1, histEv2, histEv3] histNew).1 =
      some histEv1 ∧
    histEv1 ∈ [histEv1, histEv2, histEv3] ∧
    histEv1.UnixTimestamp < histNew.UnixTimestamp ∧
    (∀ e ∈ [histEv1, histEv2, histEv3],
      e.UnixTimestamp < histNew.UnixTimestamp →
        e.UnixTimestamp ≤ histEv1.UnixTimestamp) :=
  ⟨rfl, (c2_adjacency_selection [histEv1, histEv2, histEv3] histNew).1
    histEv1 rfl⟩

lemma isSome_map {α β : Type} (f : α → β) (o : Option α) :
    (o.map f).isSome = o.isSome := by cases o <;> rfl

lemma HandlePost_some {geoCity : String → Option currentGeo}
    {db : List models.Login} {lr : loginRecord} {db2 : List models.Login}
    {resp : Response} (h : HandlePost geoCity db lr = (db2, some resp)) :
    validateInputs lr = true ∧ ∃ cg, geoCity lr.IPAddr = some cg ∧
      db2 = models.InsertLogin db (mkLoginRow lr cg) ∧
      resp = respOf (mkLoginRow lr cg) cg
        (models.LoginsByUsername (models.InsertLogin db (mkLoginRow lr cg))
          (mkLoginRow lr cg).Username) := by
  by_cases hv : validateInputs lr = false
  · rw [HandlePost, if_pos hv] at h
    exact absurd (congrArg Prod.snd h) (by simp)
  · have hv' : validateInputs lr = true := by
      revert hv; cases validateInputs lr <;> simp
    rcases hgeo : geoCity lr.IPAddr with _ | cg
    · rw [HandlePost, if_neg hv, hgeo] at h
      exact absurd (congrArg Prod.snd h) (by simp)
    · rw [HandlePost, if_neg hv, hgeo] at h
      dsimp only at h
      injection h with h1 h2
      exact ⟨hv', cg, rfl, h1.symm, (Option.some.inj h2).symm⟩

/-- C1: in every produced response, a reported suspicious flag is true
exactly when the speed reported alongside it is strictly greater than 500,
and a speed of exactly 500 is reported not suspicious. -/
theorem c1_suspicious_iff_speed_above_500
    (geoCity : String → Option currentGeo) (db : List models.Login)
    (lr : loginRecord) (db2 : List models.Login) (resp : Response)
    (h : HandlePost geoCity db lr = (db2, some resp)) :
    (∀ pa b, resp.precedingIpAccess = some pa →
      resp.travelToCurrentGeoSuspicious = some b →
      ((b = true ↔ 500 < pa.Speed) ∧ (pa.Speed = 500 → b = false))) ∧
    (∀ pa b, resp.subsequentIpAccess = some pa →
      resp.travelFromCurrentGeoSuspicious = some b →
      ((b = true ↔ 500 < pa.Speed) ∧ (pa.Speed = 500 → b = false))) := by
  obtain ⟨hv, cg, hgeo, hdb, hresp⟩ := HandlePost_some h
  subst hresp
  dsimp only [respOf]
  constructor
  · intro pa b hpa hb
    rcases hprev : (models.GetAdjacentLogins (models.LoginsByUsername
        (models.InsertLogin db (mkLoginRow lr cg))
        (mkLoginRow lr cg).Username) (mkLoginRow lr cg)).1 with _ | p
    · rw [hprev] at hpa
      simp at hpa
    · rw [hprev] at hpa hb
      rw [Option.map_some'] at hpa hb
      have hpa' : pa = _ := (Option.some.inj hpa).symm
      have hb' : b = _ := (Option.some.inj hb).symm
      subst hpa'
      subst hb'
      constructor
      · simp [suspiciousFlag]
      · intro hs
        simp only [suspiciousFlag, decide_eq_false_iff_not, not_lt]
        exact le_of_eq hs
  · intro pa b hpa hb
    rcases hnext : (models.GetAdjacentLogins (models.LoginsByUsername
        (models.InsertLogin db (mkLoginRow lr cg))
        (mkLoginRow lr cg).Username) (mkLoginRow lr cg)).2 with _ | q
    · rw [hnext] at hpa
      simp at hpa
    · rw [hnext] at hpa hb
      rw [Option.map_some'] at hpa hb
      have hpa' : pa = _ := (Option.some.inj hpa).symm
      have hb' : b = _ := (Option.some.inj hb).symm
      subst hpa'
      subst hb'
      constructor
      · simp [suspiciousFlag]
      · intro hs
        simp only [suspiciousFlag, decide_eq_false_iff_not, not_lt]
        exact le_of_eq hs

/-- C6: every successful response carries the resolved location of the new
event; a travel verdict flag is present exactly when its access record is,
which is exactly when the corresponding adjacent login exists; and with an
empty prior history the response has no travel verdicts at all. -/
theorem c6_response_shape (geoCity : String → Option currentGeo)
    (db : List models.Login) (lr : loginRecord) (cg : currentGeo)
    (db2 : List models.Login) (resp : Response)
    (hgeo : geoCity lr.IPAddr = some cg)
    (h : HandlePost geoCity db lr = (db2, some resp)) :
    resp.currentGeo = cg ∧
    resp.travelToCurrentGeoSuspicious.isSome = resp.precedingIpAccess.isSome ∧
    resp.travelFromCurrentGeoSuspicious.isSome = resp.subsequentIpAccess.isSome ∧
    resp.travelToCurrentGeoSuspicious.isSome =
      ((models.GetAdjacentLogins (models.LoginsByUsername
        (models.InsertLogin db (mkLoginRow lr cg))
        (mkLoginRow lr cg).Username) (mkLoginRow lr cg)).1).isSome ∧
    resp.travelFromCurrentGeoSuspicious.isSome =
      ((models.GetAdjacentLogins (models.LoginsByUsername
        (models.InsertLogin db (mkLoginRow lr cg))
        (mkLoginRow lr cg).Username) (mkLoginRow lr cg)).2).isSome ∧
    (models.LoginsByUsername db lr.Username = [] →
      resp.travelToCurrentGeoSuspicious = none ∧
      resp.precedingIpAccess = none ∧
      resp.travelFromCurrentGeoSuspicious = none ∧
      resp.subsequentIpAccess = none) := by
  obtain ⟨hv, cg2, hgeo2, hdb, hresp⟩ := HandlePost_some h
  rw [hgeo] at hgeo2
  obtain rfl : cg = cg2 := Option.some.inj hgeo2
  subst hresp
  dsimp only [respOf]
  refine ⟨rfl, ?_, ?_, ?_, ?_, ?_⟩
  · rw [isSome_map, isSome_map]
  · rw [isSome_map, isSome_map]
  · rw [isSome_map]
  · rw [isSome_map]
  · intro hempty
    have hempty' : List.insertionSort
        (fun a b : models.Login => a.UnixTimestamp ≤ b.UnixTimestamp)
        (db.filter (fun l => l.Username == lr.Username)) = [] := hempty
    have hperm := List.perm_insertionSort
      (fun a b : models.Login => a.UnixTimestamp ≤ b.UnixTimestamp)
      (db.filter (fun l => l.Username == lr.Username))
    rw [hempty'] at hperm
    have hfilter : db.filter (fun l => l.Username == lr.Username) = [] :=
      hperm.symm.eq_nil
    have hall : models.LoginsByUsername
        (models.InsertLogin db (mkLoginRow lr cg))
        (mkLoginRow lr cg).Username = [mkLoginRow lr cg] := by
      show List.insertionSort _
        ((db ++ [mkLoginRow lr cg]).filter
          (fun l => l.Username == (mkLoginRow lr cg).Username)) = _
      rw [List.filter_append]
      have : (fun l : models.Login => l.Username == (mkLoginRow lr cg).Username) =
          (fun l : models.Login => l.Username == lr.Username) := rfl
      rw [this, hfilter]
      simp [mkLoginRow, List.insertionSort, List.orderedInsert]
    rw [hall]
    simp [models.GetAdjacentLogins, models.bestPrev, models.bestNext]

def cg0 : currentGeo := ⟨0, 0, 0⟩

def geo0 : String → Option currentGeo := fun _ => some cg0

def row0 : models.Login := mkLoginRow lrValid cg0

def resp0 : Response := ⟨cg0, none, none, none, none⟩

/-- Witness for C6 on a concrete first-ever login: the history is empty, so
the response carries only the resolved location and no travel verdicts. -/
theorem c6_response_shape_witness :
    geo0 lrValid.IPAddr = some cg0 ∧
    HandlePost geo0 [] lrValid = ([row0], some resp0) ∧
    resp0.travelToCurrentGeoSuspicious = none ∧
    resp0.precedingIpAccess = none ∧
    resp0.travelFromCurrentGeoSuspicious = none ∧
    resp0.subsequentIpAccess = none := by
  have hH : HandlePost geo0 [] lrValid = ([row0], some resp0) := by rfl
  have hc := c6_response_shape geo0 [] lrValid cg0 [row0] resp0 rfl hH
  have hemp := hc.2.2.2.2.2 rfl
  exact ⟨rfl, hH, hemp.1, hemp.2.1, hemp.2.2.1, hemp.2.2.2⟩

def prior0 : models.Login := ⟨"alice", 0, "uuid-0", "9.9.9.9", 0, 0, 0⟩

def ipa1 : ipAccess := ⟨"9.9.9.9", 0, 0, 0, 0, 0⟩

def resp1 : Response := ⟨cg0, some false, some ipa1, none, none⟩

lemma speed_prior0_row0 : getTravelSpeed prior0 row0 = 0 := by
  have h0 : getTravelSpeed prior0 row0 =
      travel.Speed (travel.Distance 0 0 0 0) 1000 0 := rfl
  rw [h0, Distance_self]
  simp only [travel.Speed]
  norm_num

lemma respOf_row0 : respOf row0 cg0 [prior0, row0] = resp1 := by
  have hprev : (models.GetAdjacentLogins [prior0, row0] row0).1 = some prior0 := rfl
  have hnext : (models.GetAdjacentLogins [prior0, row0] row0).2 = none := rfl
  dsimp only [respOf]
  rw [hprev, hnext]
  simp only [Option.map_some', Option.map_none', speed_prior0_row0]
  rfl

/-- Witness for C1 on a concrete run with one preceding login at the same
location: the reported speed is 0 and the suspicious flag is false. -/
theorem c1_suspicious_iff_speed_above_500_witness :
    HandlePost geo0 [prior0] lrValid = ([prior0, row0], some resp1) ∧
    resp1.precedingIpAccess = some ipa1 ∧
    resp1.travelToCurrentGeoSuspicious = some false ∧
    ((false = true ↔ 500 < ipa1.Speed) ∧ (ipa1.Speed = 500 → false = false)) := by
  have hH : HandlePost geo0 [prior0] lrValid =
      ([prior0, row0], some (respOf row0 cg0 [prior0, row0])) := by rfl
  rw [respOf_row0] at hH
  exact ⟨hH, rfl, rfl,
    (c1_suspicious_iff_speed_above_500 geo0 [prior0] lrValid _ resp1 hH).1
      ipa1 false rfl rfl⟩

/-- C9: for a pair with distinct timestamps the computed speed is the
truncation (floor) of the exact real-valued speed to a Go `int`, the
classification uses that integer, and in particular a pair whose exact speed
lies strictly between 500 and 501 km/h is reported not suspicious even though
its exact speed exceeds the threshold. -/
theorem c9_integer_truncation (a b : models.Login)
    (hts : a.UnixTimestamp ≠ b.UnixTimestamp) :
    getTravelSpeed a b = ⌊exactSpeed a b⌋ ∧
    (getTravelSpeed a b ≤ 500 → suspiciousFlag (getTravelSpeed a b) = false) ∧
    (500 < exactSpeed a b → exactSpeed a b < 501 →
      suspiciousFlag (getTravelSpeed a b) = false) := by
  have hsec : ¬ |a.UnixTimestamp - b.UnixTimestamp| = 0 := by
    intro hcon
    rw [abs_eq_zero] at hcon
    exact hts (by omega)
  have h1 : getTravelSpeed a b = ⌊exactSpeed a b⌋ := by
    simp only [getTravelSpeed, travel.Speed, exactSpeed, if_neg hsec]
  refine ⟨h1, ?_, ?_⟩
  · intro hle
    simp only [suspiciousFlag, decide_eq_false_iff_not, not_lt]
    exact hle
  · intro hlo hhi
    have hfl : ⌊exactSpeed a b⌋ < 501 := by
      rw [Int.floor_lt]
      exact_mod_cast hhi
    simp only [suspiciousFlag, decide_eq_false_iff_not, not_lt, h1]
    omega

def eqA : models.Login := ⟨"alice", 3600, "uuid-ea", "1.2.3.4", 0, 4.5, 0⟩

def eqB : models.Login := ⟨"alice", 0, "uuid-eb", "5.6.7.8", 0, 0, 0⟩

lemma Distance_equator_4p5 :
    travel.Distance 0 4.5 0 0 = 12742 * (Real.pi / 80) := by
  simp only [travel.Distance]
  have e0 : (((0:ℝ) - 0) * Real.pi / 180) / 2 = 0 := by ring
  have e1 : ((0:ℝ) * Real.pi / 180) = 0 := by ring
  have e2 : ((((0:ℝ)) - 4.5) * Real.pi / 180) / 2 = -(Real.pi / 80) := by
    norm_num
    ring
  rw [e0, e1, e2, Real.sin_zero, Real.cos_zero, Real.sin_neg, neg_sq]
  have e3 : (0:ℝ) ^ 2 + 1 * 1 * Real.sin (Real.pi / 80) ^ 2 =
      Real.sin (Real.pi / 80) ^ 2 := by ring
  rw [e3]
  have hpos : (0:ℝ) ≤ Real.sin (Real.pi / 80) :=
    Real.sin_nonneg_of_nonneg_of_le_pi (by positivity)
      (by nlinarith [Real.pi_pos])
  rw [Real.sqrt_sq hpos]
  rw [Real.arcsin_sin (by nlinarith [Real.pi_pos]) (by nlinarith [Real.pi_pos])]
  ring

lemma exactSpeed_equator : exactSpeed eqA eqB = 12742 * (Real.pi / 80) := by
  have h0 : exactSpeed eqA eqB =
      travel.Distance 0 4.5 0 0 / (((|(3600:ℤ) - 0| : ℤ) : ℝ) / 3600) := rfl
  rw [h0, Distance_equator_4p5]
  norm_num

/-- Witness for C9 on a concrete equatorial pair one hour apart whose exact
speed is 12742·π/80 ≈ 500.4 km/h: above the threshold as a real number, yet
truncated to 500 and reported not suspicious. -/
theorem c9_integer_truncation_witness :
    eqA.UnixTimestamp ≠ eqB.UnixTimestamp ∧
    500 < exactSpeed eqA eqB ∧ exactSpeed eqA eqB < 501 ∧
    suspiciousFlag (getTravelSpeed eqA eqB) = false := by
  have hlo : 500 < exactSpeed eqA eqB := by
    rw [exactSpeed_equator]
    nlinarith [Real.pi_gt_d6]
  have hhi : exactSpeed eqA eqB < 501 := by
    rw [exactSpeed_equator]
    nlinarith [Real.pi_lt_d6]
  exact ⟨by decide, hlo, hhi,
    (c9_integer_truncation eqA eqB (by decide)).2.2 hlo hhi⟩

lemma charLe_iff {a b : Char} : a ≤ b ↔ a.toNat ≤ b.toNat := Iff.rfl

lemma charEq_iff {a b : Char} : a = b ↔ a.toNat = b.toNat :=
  ⟨fun h => h ▸ rfl, fun h => Char.eq_of_val_eq (UInt32.toNat.inj h)⟩

lemma isDigitChar_iff {c : Char} :
    isDigitChar c = true ↔ 48 ≤ c.toNat ∧ c.toNat ≤ 57 := by
  simp only [isDigitChar, Bool.and_eq_true, decide_eq_true_eq]
  rw [charLe_iff, charLe_iff]
  exact Iff.rfl

/-- The numeric value of a string of decimal digit characters. -/
def digitsVal (cs : List Char) : ℕ :=
  cs.foldl (fun acc c => 10 * acc + (c.toNat - 48)) 0

lemma digitsVal_one (c : Char) : digitsVal [c] = c.toNat - 48 := by
  simp [digitsVal]

lemma digitsVal_two (b c : Char) :
    digitsVal [b, c] = 10 * (b.toNat - 48) + (c.toNat - 48) := by
  simp [digitsVal]

lemma digitsVal_three (a b c : Char) :
    digitsVal [a, b, c] =
      10 * (10 * (a.toNat - 48) + (b.toNat - 48)) + (c.toNat - 48) := by
  simp [digitsVal]

/-- Value-level description of the exact strings the octet alternation of the
pattern accepts: one to three decimal digits, numeric value at most 255, and
no three-digit form with a leading zero. -/
def OctetSpec (cs : List Char) : Prop :=
  (∀ c ∈ cs, 48 ≤ c.toNat ∧ c.toNat ≤ 57) ∧ 1 ≤ cs.length ∧ cs.length ≤ 3 ∧
    digitsVal cs ≤ 255 ∧ ¬(cs.length = 3 ∧ cs.head? = some '0')

lemma isOctet_iff (cs : List Char) : isOctet cs = true ↔ OctetSpec cs := by
  rcases cs with _ | ⟨c1, _ | ⟨c2, _ | ⟨c3, _ | ⟨c4, rest⟩⟩⟩⟩
  · simp [isOctet, OctetSpec]
  · simp [isOctet, OctetSpec, isDigitChar_iff, digitsVal_one]
    omega
  · simp [isOctet, OctetSpec, isDigitChar_iff, digitsVal_two]
    omega
  · have hmem : (∀ c ∈ [c1, c2, c3], 48 ≤ c.toNat ∧ c.toNat ≤ 57) ↔
        ((48 ≤ c1.toNat ∧ c1.toNat ≤ 57) ∧ (48 ≤ c2.toNat ∧ c2.toNat ≤ 57) ∧
          (48 ≤ c3.toNat ∧ c3.toNat ≤ 57)) := by
      simp [List.forall_mem_cons]
    unfold OctetSpec
    rw [hmem]
    simp [isOctet, isDigitChar_iff, digitsVal_three, charEq_iff,
      charLe_iff, show ('0' : Char).toNat = 48 from rfl,
      show ('1' : Char).toNat = 49 from rfl,
      show ('2' : Char).toNat = 50 from rfl,
      show ('4' : Char).toNat = 52 from rfl,
      show ('5' : Char).toNat = 53 from rfl]
    omega
  · constructor
    · intro h
      exact Bool.noConfusion h
    · intro hspec
      exfalso
      have hlen := hspec.2.2.1
      simp at hlen

lemma isOctet_length {cs : List Char} (h : isOctet cs = true) :
    cs.length = 1 ∨ cs.length = 2 ∨ cs.length = 3 := by
  rcases cs with _ | ⟨c1, _ | ⟨c2, _ | ⟨c3, _ | ⟨c4, rest⟩⟩⟩⟩
  · exact Bool.noConfusion h
  · left; rfl
  · right; left; rfl
  · right; right; rfl
  · exact Bool.noConfusion h

lemma tailGroups_zero (r : List Char) : tailGroups 0 r = true ↔ r = [] := by
  cases r <;> simp [tailGroups]

lemma tailGroups_succ_iff (n : ℕ) (s : List Char) :
    tailGroups (n + 1) s = true ↔
      ∃ o r2, isOctet o = true ∧ s = '.' :: (o ++ r2) ∧ tailGroups n r2 = true := by
  cases s with
  | nil =>
    simp [tailGroups]
  | cons c rest =>
    simp only [tailGroups, Bool.and_eq_true, Bool.or_eq_true, beq_iff_eq, or_assoc]
    constructor
    · rintro ⟨rfl, ⟨ho, ht⟩ | ⟨ho, ht⟩ | ⟨ho, ht⟩⟩
      · exact ⟨rest.take 1, rest.drop 1, ho, by rw [List.take_append_drop], ht⟩
      · exact ⟨rest.take 2, rest.drop 2, ho, by rw [List.take_append_drop], ht⟩
      · exact ⟨rest.take 3, rest.drop 3, ho, by rw [List.take_append_drop], ht⟩
    · rintro ⟨o, r2, ho, hs, ht⟩
      injection hs with hc hrest
      subst hc
      refine ⟨rfl, ?_⟩
      rcases isOctet_length ho with hk | hk | hk
      · exact Or.inl ⟨by rw [hrest, List.take_left' hk]; exact ho,
          by rw [hrest, List.drop_left' hk]; exact ht⟩
      · exact Or.inr (Or.inl ⟨by rw [hrest, List.take_left' hk]; exact ho,
          by rw [hrest, List.drop_left' hk]; exact ht⟩)
      · exact Or.inr (Or.inr ⟨by rw [hrest, List.take_left' hk]; exact ho,
          by rw [hrest, List.drop_left' hk]; exact ht⟩)

lemma tailGroups3_iff (r : List Char) :
    tailGroups 3 r = true ↔
      ∃ o2 o3 o4, isOctet o2 = true ∧ isOctet o3 = true ∧ isOctet o4 = true ∧
        r = '.' :: (o2 ++ '.' :: (o3 ++ '.' :: o4)) := by
  rw [tailGroups_succ_iff]
  constructor
  · rintro ⟨o2, r2, ho2, hr, ht⟩
    rw [tailGroups_succ_iff] at ht
    obtain ⟨o3, r3, ho3, hr2, ht⟩ := ht
    rw [tailGroups_succ_iff] at ht
    obtain ⟨o4, r4, ho4, hr3, ht⟩ := ht
    rw [tailGroups_zero] at ht
    subst ht
    rw [List.append_nil] at hr3
    refine ⟨o2, o3, o4, ho2, ho3, ho4, ?_⟩
    rw [hr, hr2, hr3]
  · rintro ⟨o2, o3, o4, ho2, ho3, ho4, hr⟩
    refine ⟨o2, '.' :: (o3 ++ '.' :: o4), ho2, hr, ?_⟩
    rw [tailGroups_succ_iff]
    refine ⟨o3, '.' :: o4, ho3, rfl, ?_⟩
    rw [tailGroups_succ_iff]
    exact ⟨o4, [], ho4, by rw [List.append_nil], by rw [tailGroups_zero]⟩

lemma tailGroups4_iff (r : List Char) :
    tailGroups 4 r = true ↔
      ∃ o1 o2 o3 o4, isOctet o1 = true ∧ isOctet o2 = true ∧
        isOctet o3 = true ∧ isOctet o4 = true ∧
        r = '.' :: (o1 ++ '.' :: (o2 ++ '.' :: (o3 ++ '.' :: o4))) := by
  rw [tailGroups_succ_iff]
  constructor
  · rintro ⟨o1, r2, ho1, hr, ht⟩
    rw [tailGroups3_iff] at ht
    obtain ⟨o2, o3, o4, ho2, ho3, ho4, hr2⟩ := ht
    refine ⟨o1, o2, o3, o4, ho1, ho2, ho3, ho4, ?_⟩
    rw [hr, hr2]
  · rintro ⟨o1, o2, o3, o4, ho1, ho2, ho3, ho4, hr⟩
    refine ⟨o1, '.' :: (o2 ++ '.' :: (o3 ++ '.' :: o4)), ho1, hr, ?_⟩
    rw [tailGroups3_iff]
    exact ⟨o2, o3, o4, ho2, ho3, ho4, rfl⟩

/-- Follows the spec's words for C7: the canonical IPv4 textual form, four
dot-separated decimal octets, each the canonical decimal numeral of a value
between 0 and 255 (in particular no leading zero except for "0" itself). -/
def canonicalOctet (cs : List Char) : Bool :=
  cs.all (fun c => isDigitChar c) && decide (1 ≤ cs.length) &&
    decide (digitsVal cs ≤ 255) &&
    (decide (cs.length = 1) || decide (cs.head? ≠ some '0'))

/-- Follows the spec's words for C7: a string in the canonical IPv4 textual
form, exactly four dot-separated canonical 0-255 octets. -/
def isCanonicalIPv4 (s : String) : Bool :=
  let parts := s.data.splitOn '.'
  decide (parts.length = 4) && parts.all canonicalOctet

/-- Counterexample to C7 as stated: the pattern of detector.go line 51 allows
its inner `^` alternative to be taken only on the first repetition, so all
four repetitions may instead consume a leading dot, and the non-canonical
string ".1.2.3.4" is accepted by `isValidIP` although it is not four
dot-separated octets. -/
theorem c7_counterexample_leading_dot :
    isValidIP ".1.2.3.4" = true ∧ isCanonicalIPv4 ".1.2.3.4" = false := by
  constructor <;> rfl

/-- C7 as amended: `isValidIP` accepts exactly the strings made of four
dot-separated octet tokens, optionally preceded by one extra leading dot,
where a token is one to three decimal digits whose value is at most 255 and a
three-digit token does not start with a zero (so the canonical forms are
accepted, but also a leading-dot form and two-digit tokens with a leading
zero such as "04"). -/
theorem c7_isValidIP_characterization (s : String) :
    isValidIP s = true ↔
      ∃ o1 o2 o3 o4 : List Char,
        OctetSpec o1 ∧ OctetSpec o2 ∧ OctetSpec o3 ∧ OctetSpec o4 ∧
        (s.data = o1 ++ '.' :: (o2 ++ '.' :: (o3 ++ '.' :: o4)) ∨
         s.data = '.' :: (o1 ++ '.' :: (o2 ++ '.' :: (o3 ++ '.' :: o4)))) := by
  have base : isValidIP s =
      ((isOctet (s.data.take 1) && tailGroups 3 (s.data.drop 1)) ||
       (isOctet (s.data.take 2) && tailGroups 3 (s.data.drop 2)) ||
       (isOctet (s.data.take 3) && tailGroups 3 (s.data.drop 3)) ||
       tailGroups 4 s.data) := rfl
  rw [base]
  simp only [Bool.or_eq_true, Bool.and_eq_true, or_assoc]
  constructor
  · rintro (⟨ho, ht⟩ | ⟨ho, ht⟩ | ⟨ho, ht⟩ | ht)
    · rw [tailGroups3_iff] at ht
      obtain ⟨o2, o3, o4, ho2, ho3, ho4, hr⟩ := ht
      refine ⟨s.data.take 1, o2, o3, o4, (isOctet_iff _).mp ho,
        (isOctet_iff _).mp ho2, (isOctet_iff _).mp ho3, (isOctet_iff _).mp ho4,
        Or.inl ?_⟩
      conv_lhs => rw [← List.take_append_drop 1 s.data]
      rw [hr]
    · rw [tailGroups3_iff] at ht
      obtain ⟨o2, o3, o4, ho2, ho3, ho4, hr⟩ := ht
      refine ⟨s.data.take 2, o2, o3, o4, (isOctet_iff _).mp ho,
        (isOctet_iff _).mp ho2, (isOctet_iff _).mp ho3, (isOctet_iff _).mp ho4,
        Or.inl ?_⟩
      conv_lhs => rw [← List.take_append_drop 2 s.data]
      rw [hr]
    · rw [tailGroups3_iff] at ht
      obtain ⟨o2, o3, o4, ho2, ho3, ho4, hr⟩ := ht
      refine ⟨s.data.take 3, o2, o3, o4, (isOctet_iff _).mp ho,
        (isOctet_iff _).mp ho2, (isOctet_iff _).mp ho3, (isOctet_iff _).mp ho4,
        Or.inl ?_⟩
      conv_lhs => rw [← List.take_append_drop 3 s.data]
      rw [hr]
    · rw [tailGroups4_iff] at ht
      obtain ⟨o1, o2, o3, o4, ho1, ho2, ho3, ho4, hr⟩ := ht
      exact ⟨o1, o2, o3, o4, (isOctet_iff _).mp ho1, (isOctet_iff _).mp ho2,
        (isOctet_iff _).mp ho3, (isOctet_iff _).mp ho4, Or.inr hr⟩
  · rintro ⟨o1, o2, o3, o4, h1, h2, h3, h4, hr | hr⟩
    · have ho1 := (isOctet_iff o1).mpr h1
      have ho2 := (isOctet_iff o2).mpr h2
      have ho3 := (isOctet_iff o3).mpr h3
      have ho4 := (isOctet_iff o4).mpr h4
      have htail : tailGroups 3 ('.' :: (o2 ++ '.' :: (o3 ++ '.' :: o4))) = true :=
        (tailGroups3_iff _).mpr ⟨o2, o3, o4, ho2, ho3, ho4, rfl⟩
      rcases isOctet_length ho1 with hk | hk | hk
      · exact Or.inl ⟨by rw [hr, List.take_left' hk]; exact ho1,
          by rw [hr, List.drop_left' hk]; exact htail⟩
      · exact Or.inr (Or.inl ⟨by rw [hr, List.take_left' hk]; exact ho1,
          by rw [hr, List.drop_left' hk]; exact htail⟩)
      · exact Or.inr (Or.inr (Or.inl ⟨by rw [hr, List.take_left' hk]; exact ho1,
          by rw [hr, List.drop_left' hk]; exact htail⟩))
    · refine Or.inr (Or.inr (Or.inr ?_))
      rw [hr, tailGroups4_iff]
      exact ⟨o1, o2, o3, o4, (isOctet_iff o1).mpr h1, (isOctet_iff o2).mpr h2,
        (isOctet_iff o3).mpr h3, (isOctet_iff o4).mpr h4, rfl⟩

/-- Witness for the amended C7 at the concrete accepted string "1.2.3.4". -/
theorem c7_isValidIP_characterization_witness :
    isValidIP "1.2.3.4" = true ∧
    ∃ o1 o2 o3 o4 : List Char,
      OctetSpec o1 ∧ OctetSpec o2 ∧ OctetSpec o3 ∧ OctetSpec o4 ∧
      (("1.2.3.4" : String).data = o1 ++ '.' :: (o2 ++ '.' :: (o3 ++ '.' :: o4)) ∨
       ("1.2.3.4" : String).data =
         '.' :: (o1 ++ '.' :: (o2 ++ '.' :: (o3 ++ '.' :: o4)))) :=
  ⟨rfl, (c7_isValidIP_characterization "1.2.3.4").mp rfl⟩

lemma cos_double_sin (x : ℝ) : Real.cos (2 * x) = 1 - 2 * Real.sin x ^ 2 := by
  have h := Real.sin_sq_add_cos_sq x
  rw [Real.cos_two_mul]
  nlinarith [h]

lemma sin_interval {x lo hi slo shi : ℝ} (h1 : lo ≤ x) (h2 : x ≤ hi)
    (h0 : 0 ≤ lo) (h3 : hi ≤ 1)
    (hslo : slo ≤ lo - lo ^ 3 / 6 - hi ^ 4 * (5 / 96))
    (hshi : hi - hi ^ 3 / 6 + hi ^ 4 * (5 / 96) ≤ shi) :
    slo ≤ Real.sin x ∧ Real.sin x ≤ shi := by
  have hx0 : 0 ≤ x := le_trans h0 h1
  have hx1 : x ≤ 1 := le_trans h2 h3
  have hb := Real.sin_bound (x := x) (by rwa [abs_of_nonneg hx0])
  rw [abs_le, abs_of_nonneg hx0] at hb
  have hx4 : x ^ 4 ≤ hi ^ 4 := pow_le_pow_left₀ hx0 h2 4
  have hhi0 : 0 ≤ hi := le_trans hx0 h2
  have hcube1 : lo - lo ^ 3 / 6 ≤ x - x ^ 3 / 6 := by
    nlinarith [mul_nonneg (sub_nonneg.mpr h1)
      (show (0:ℝ) ≤ 6 - (x ^ 2 + x * lo + lo ^ 2) by
        nlinarith [mul_nonneg (sub_nonneg.mpr hx1) (show (0:ℝ) ≤ 1 + x by linarith),
          mul_nonneg (sub_nonneg.mpr (le_trans h1 hx1)) (show (0:ℝ) ≤ 1 + lo by linarith),
          mul_nonneg (sub_nonneg.mpr hx1) h0])]
  have hcube2 : x - x ^ 3 / 6 ≤ hi - hi ^ 3 / 6 := by
    nlinarith [mul_nonneg (sub_nonneg.mpr h2)
      (show (0:ℝ) ≤ 6 - (hi ^ 2 + hi * x + x ^ 2) by
        nlinarith [mul_nonneg (sub_nonneg.mpr h3) (show (0:ℝ) ≤ 1 + hi by linarith),
          mul_nonneg (sub_nonneg.mpr hx1) (show (0:ℝ) ≤ 1 + x by linarith),
          mul_nonneg (sub_nonneg.mpr h3) hx0])]
  constructor
  · linarith [hb.1]
  · linarith [hb.2]

lemma cos_interval {x lo hi clo chi : ℝ} (h1 : lo ≤ x) (h2 : x ≤ hi)
    (h0 : 0 ≤ lo) (h3 : hi ≤ 1)
    (hclo : clo ≤ 1 - hi ^ 2 / 2 - hi ^ 4 * (5 / 96))
    (hchi : 1 - lo ^ 2 / 2 + hi ^ 4 * (5 / 96) ≤ chi) :
    clo ≤ Real.cos x ∧ Real.cos x ≤ chi := by
  have hx0 : 0 ≤ x := le_trans h0 h1
  have hx1 : x ≤ 1 := le_trans h2 h3
  have hb := Real.cos_bound (x := x) (by rwa [abs_of_nonneg hx0])
  rw [abs_le, abs_of_nonneg hx0] at hb
  have hx4 : x ^ 4 ≤ hi ^ 4 := pow_le_pow_left₀ hx0 h2 4
  have hsq1 : lo ^ 2 ≤ x ^ 2 := pow_le_pow_left₀ h0 h1 2
  have hsq2 : x ^ 2 ≤ hi ^ 2 := pow_le_pow_left₀ hx0 h2 2
  constructor
  · linarith [hb.1]
  · linarith [hb.2]

lemma prod_bounds {a b la ha lb hb : ℝ} (h1 : la ≤ a) (h2 : a ≤ ha) (h3 : lb ≤ b)
    (h4 : b ≤ hb) (h5 : 0 ≤ la) (h6 : 0 ≤ lb) :
    la * lb ≤ a * b ∧ a * b ≤ ha * hb :=
  ⟨mul_le_mul h1 h3 h6 (le_trans h5 h1),
   mul_le_mul h2 h4 (le_trans h6 h3) (le_trans (le_trans h5 h1) h2)⟩

lemma sq_bounds {s ls hs : ℝ} (h1 : ls ≤ s) (h2 : s ≤ hs) (h5 : 0 ≤ ls) :
    ls ^ 2 ≤ s ^ 2 ∧ s ^ 2 ≤ hs ^ 2 :=
  ⟨pow_le_pow_left₀ h5 h1 2, pow_le_pow_left₀ (le_trans h5 h1) h2 2⟩

lemma one_sub_two_sq_bounds {s ls hs lo hi : ℝ} (h1 : ls ≤ s) (h2 : s ≤ hs)
    (h5 : 0 ≤ ls) (h7 : lo ≤ 1 - 2 * hs ^ 2) (h8 : 1 - 2 * ls ^ 2 ≤ hi) :
    lo ≤ 1 - 2 * s ^ 2 ∧ 1 - 2 * s ^ 2 ≤ hi := by
  have k := sq_bounds h1 h2 h5
  constructor <;> linarith [k.1, k.2]

set_option maxHeartbeats 1000000 in
lemma Distance_ny_london_bounds :
    (5550 : ℝ) ≤ travel.Distance 40.7128 (-74.0060) 51.5074 (-0.1278) ∧
    travel.Distance 40.7128 (-74.0060) 51.5074 (-0.1278) ≤ 5590 := by
  have hpi1 := Real.pi_gt_d6
  have hpi2 := Real.pi_lt_d6
  have hA1 : (0.0942006 : ℝ) ≤ 10.7946 * Real.pi / 360 := by linarith
  have hA2 : 10.7946 * Real.pi / 360 ≤ 0.0942007 := by linarith
  have hQ11 : (0.1776430 : ℝ) ≤ 40.7128 * Real.pi / 720 := by linarith
  have hQ12 : 40.7128 * Real.pi / 720 ≤ 0.1776432 := by linarith
  have hQ21 : (0.2247433 : ℝ) ≤ 51.5074 * Real.pi / 720 := by linarith
  have hQ22 : 51.5074 * Real.pi / 720 ≤ 0.2247435 := by linarith
  have hQ31 : (0.1611771 : ℝ) ≤ 73.8782 * Real.pi / 1440 := by linarith
  have hQ32 : 73.8782 * Real.pi / 1440 ≤ 0.1611773 := by linarith
  have hsA : (0.0940571 : ℝ) ≤ Real.sin (10.7946 * Real.pi / 360) ∧
      Real.sin (10.7946 * Real.pi / 360) ≤ 0.0940655 :=
    sin_interval hA1 hA2 (by norm_num) (by norm_num) (by norm_num) (by norm_num)
  have hsQ1 : (0.1766568 : ℝ) ≤ Real.sin (40.7128 * Real.pi / 720) ∧
      Real.sin (40.7128 * Real.pi / 720) ≤ 0.1767608 :=
    sin_interval hQ11 hQ12 (by norm_num) (by norm_num) (by norm_num) (by norm_num)
  have hcQ1 : (0.9841695 : ℝ) ≤ Real.cos (40.7128 * Real.pi / 720) ∧
      Real.cos (40.7128 * Real.pi / 720) ≤ 0.9842734 :=
    cos_interval hQ11 hQ12 (by norm_num) (by norm_num) (by norm_num) (by norm_num)
  have hsQ2 : (0.2227184 : ℝ) ≤ Real.sin (51.5074 * Real.pi / 720) ∧
      Real.sin (51.5074 * Real.pi / 720) ≤ 0.2229845 :=
    sin_interval hQ21 hQ22 (by norm_num) (by norm_num) (by norm_num) (by norm_num)
  have hcQ2 : (0.9746123 : ℝ) ≤ Real.cos (51.5074 * Real.pi / 720) ∧
      Real.cos (51.5074 * Real.pi / 720) ≤ 0.9748782 :=
    cos_interval hQ21 hQ22 (by norm_num) (by norm_num) (by norm_num) (by norm_num)
  have hsQ3 : (0.1604441 : ℝ) ≤ Real.sin (73.8782 * Real.pi / 1440) ∧
      Real.sin (73.8782 * Real.pi / 1440) ≤ 0.1605147 :=
    sin_interval hQ31 hQ32 (by norm_num) (by norm_num) (by norm_num) (by norm_num)
  have hcQ3 : (0.9869757 : ℝ) ≤ Real.cos (73.8782 * Real.pi / 1440) ∧
      Real.cos (73.8782 * Real.pi / 1440) ≤ 0.9870462 :=
    cos_interval hQ31 hQ32 (by norm_num) (by norm_num) (by norm_num) (by norm_num)
  have hsH1 : (0.3477204 : ℝ) ≤ Real.sin (40.7128 * Real.pi / 360) ∧
      Real.sin (40.7128 * Real.pi / 360) ≤ 0.3479620 := by
    rw [show (40.7128 : ℝ) * Real.pi / 360 = 2 * (40.7128 * Real.pi / 720) from
      by ring, Real.sin_two_mul]
    have hp := prod_bounds hsQ1.1 hsQ1.2 hcQ1.1 hcQ1.2 (by norm_num) (by norm_num)
    have hn1 : (0.3477204 : ℝ) ≤ 2 * (0.1766568 * 0.9841695) := by norm_num
    have hn2 : 2 * (0.1767608 * 0.9842734) ≤ (0.3479620 : ℝ) := by norm_num
    exact ⟨by linarith [hp.1], by linarith [hp.2]⟩
  have hc1 : (0.7578448 : ℝ) ≤ Real.cos (40.7128 * Real.pi / 180) ∧
      Real.cos (40.7128 * Real.pi / 180) ≤ 0.7581811 := by
    rw [show (40.7128 : ℝ) * Real.pi / 180 = 2 * (40.7128 * Real.pi / 360) from
      by ring, cos_double_sin]
    exact one_sub_two_sq_bounds hsH1.1 hsH1.2 (by norm_num) (by norm_num) (by norm_num)
  have hsH2 : (0.4341281 : ℝ) ≤ Real.sin (51.5074 * Real.pi / 360) ∧
      Real.sin (51.5074 * Real.pi / 360) ≤ 0.4347655 := by
    rw [show (51.5074 : ℝ) * Real.pi / 360 = 2 * (51.5074 * Real.pi / 720) from
      by ring, Real.sin_two_mul]
    have hp := prod_bounds hsQ2.1 hsQ2.2 hcQ2.1 hcQ2.2 (by norm_num) (by norm_num)
    have hn1 : (0.4341281 : ℝ) ≤ 2 * (0.2227184 * 0.9746123) := by norm_num
    have hn2 : 2 * (0.2229845 * 0.9748782) ≤ (0.4347655 : ℝ) := by norm_num
    exact ⟨by linarith [hp.1], by linarith [hp.2]⟩
  have hc2 : (0.6219579 : ℝ) ≤ Real.cos (51.5074 * Real.pi / 180) ∧
      Real.cos (51.5074 * Real.pi / 180) ≤ 0.6230656 := by
    rw [show (51.5074 : ℝ) * Real.pi / 180 = 2 * (51.5074 * Real.pi / 360) from
      by ring, cos_double_sin]
    exact one_sub_two_sq_bounds hsH2.1 hsH2.2 (by norm_num) (by norm_num) (by norm_num)
  have hsL4 : (0.3167088 : ℝ) ≤ Real.sin (73.8782 * Real.pi / 720) ∧
      Real.sin (73.8782 * Real.pi / 720) ≤ 0.3168709 := by
    rw [show (73.8782 : ℝ) * Real.pi / 720 = 2 * (73.8782 * Real.pi / 1440) from
      by ring, Real.sin_two_mul]
    have hp := prod_bounds hsQ3.1 hsQ3.2 hcQ3.1 hcQ3.2 (by norm_num) (by norm_num)
    have hn1 : (0.3167088 : ℝ) ≤ 2 * (0.1604441 * 0.9869757) := by norm_num
    have hn2 : 2 * (0.1605147 * 0.9870462) ≤ (0.3168709 : ℝ) := by norm_num
    exact ⟨by linarith [hp.1], by linarith [hp.2]⟩
  have hcL4 : (0.9484700 : ℝ) ≤ Real.cos (73.8782 * Real.pi / 720) ∧
      Real.cos (73.8782 * Real.pi / 720) ≤ 0.9485154 := by
    rw [show (73.8782 : ℝ) * Real.pi / 720 = 2 * (73.8782 * Real.pi / 1440) from
      by ring, cos_double_sin]
    exact one_sub_two_sq_bounds hsQ3.1 hsQ3.2 (by norm_num) (by norm_num) (by norm_num)
  have hsL2 : (0.6007775 : ℝ) ≤ Real.sin (73.8782 * Real.pi / 360) ∧
      Real.sin (73.8782 * Real.pi / 360) ≤ 0.6011139 := by
    rw [show (73.8782 : ℝ) * Real.pi / 360 = 2 * (73.8782 * Real.pi / 720) from
      by ring, Real.sin_two_mul]
    have hp := prod_bounds hsL4.1 hsL4.2 hcL4.1 hcL4.2 (by norm_num) (by norm_num)
    have hn1 : (0.6007775 : ℝ) ≤ 2 * (0.3167088 * 0.9484700) := by norm_num
    have hn2 : 2 * (0.3168709 * 0.9485154) ≤ (0.6011139 : ℝ) := by norm_num
    exact ⟨by linarith [hp.1], by linarith [hp.2]⟩
  have hsA2 := sq_bounds hsA.1 hsA.2 (by norm_num)
  have hsL22 := sq_bounds hsL2.1 hsL2.2 (by norm_num)
  have hcc := prod_bounds hc1.1 hc1.2 hc2.1 hc2.2 (by norm_num) (by norm_num)
  have hterm := prod_bounds hcc.1 hcc.2 hsL22.1 hsL22.2 (by norm_num) (by norm_num)
  obtain ⟨v, hv⟩ : ∃ w : ℝ, w = Real.sin (10.7946 * Real.pi / 360) ^ 2 +
      Real.cos (40.7128 * Real.pi / 180) * Real.cos (51.5074 * Real.pi / 180) *
        Real.sin (73.8782 * Real.pi / 360) ^ 2 := ⟨_, rfl⟩
  have hhl : (0.1789718 : ℝ) ≤ v := by
    rw [hv]
    have hn : (0.1789718 : ℝ) ≤ 0.0940571 ^ 2 +
        0.7578448 * 0.6219579 * 0.6007775 ^ 2 := by norm_num
    linarith [hsA2.1, hterm.1]
  have hhu : v ≤ 0.1795433 := by
    rw [hv]
    have hn : (0.0940655 : ℝ) ^ 2 +
        0.7581811 * 0.6230656 * 0.6011139 ^ 2 ≤ 0.1795433 := by norm_num
    linarith [hsA2.2, hterm.2]
  have hs_lo : (0.4230505 : ℝ) ≤ Real.sqrt v := by
    refine (Real.le_sqrt (by norm_num) (by linarith)).mpr ?_
    have hn : (0.4230505 : ℝ) ^ 2 ≤ 0.1789718 := by norm_num
    linarith
  have hs_hi : Real.sqrt v ≤ 0.4237256 := by
    refine (Real.sqrt_le_left (by norm_num)).mpr ?_
    have hn : (0.1795433 : ℝ) ≤ 0.4237256 ^ 2 := by norm_num
    linarith
  have hsin_tl : Real.sin 0.4365 ≤ 0.4230505 := by
    rw [show (0.4365 : ℝ) = 2 * 0.21825 from by norm_num, Real.sin_two_mul]
    have hs : (0.2163990 : ℝ) ≤ Real.sin 0.21825 ∧ Real.sin 0.21825 ≤ 0.2166356 :=
      sin_interval (le_refl (0.21825 : ℝ)) (le_refl _) (by norm_num) (by norm_num)
        (by norm_num) (by norm_num)
    have hc : (0.9760652 : ℝ) ≤ Real.cos 0.21825 ∧ Real.cos 0.21825 ≤ 0.9763017 :=
      cos_interval (le_refl (0.21825 : ℝ)) (le_refl _) (by norm_num) (by norm_num)
        (by norm_num) (by norm_num)
    have hp := prod_bounds hs.1 hs.2 hc.1 hc.2 (by norm_num) (by norm_num)
    have hn : 2 * (0.2166356 * 0.9763017) ≤ (0.4230505 : ℝ) := by norm_num
    linarith [hp.2]
  have hsin_th : (0.4237256 : ℝ) ≤ Real.sin 0.438 := by
    rw [show (0.438 : ℝ) = 2 * 0.219 from by norm_num, Real.sin_two_mul]
    have hs : (0.2171296 : ℝ) ≤ Real.sin 0.219 ∧ Real.sin 0.219 ≤ 0.2173700 :=
      sin_interval (le_refl (0.219 : ℝ)) (le_refl _) (by norm_num) (by norm_num)
        (by norm_num) (by norm_num)
    have hc : (0.9758996 : ℝ) ≤ Real.cos 0.219 ∧ Real.cos 0.219 ≤ 0.9761394 :=
      cos_interval (le_refl (0.219 : ℝ)) (le_refl _) (by norm_num) (by norm_num)
        (by norm_num) (by norm_num)
    have hp := prod_bounds hs.1 hs.2 hc.1 hc.2 (by norm_num) (by norm_num)
    have hn : (0.4237256 : ℝ) ≤ 2 * (0.2171296 * 0.9758996) := by norm_num
    linarith [hp.1]
  have hpi3 := Real.pi_gt_three
  have harc_lo : (0.4365 : ℝ) ≤ Real.arcsin (Real.sqrt v) := by
    have h1 : Real.arcsin (Real.sin 0.4365) = 0.4365 :=
      Real.arcsin_sin (by linarith) (by linarith)
    calc (0.4365 : ℝ) = Real.arcsin (Real.sin 0.4365) := h1.symm
      _ ≤ Real.arcsin (Real.sqrt v) :=
          Real.monotone_arcsin (le_trans hsin_tl hs_lo)
  have harc_hi : Real.arcsin (Real.sqrt v) ≤ 0.438 := by
    have h1 : Real.arcsin (Real.sin 0.438) = 0.438 :=
      Real.arcsin_sin (by linarith) (by linarith)
    calc Real.arcsin (Real.sqrt v) ≤ Real.arcsin (Real.sin 0.438) :=
          Real.monotone_arcsin (le_trans hs_hi hsin_th)
      _ = 0.438 := h1
  have e1 : ((51.5074 - 40.7128 : ℝ) * Real.pi / 180) / 2 = 10.7946 * Real.pi / 360 := by
    rw [show (51.5074 - 40.7128 : ℝ) = 10.7946 from by norm_num]
    ring
  have e2 : (((-0.1278) - (-74.0060) : ℝ) * Real.pi / 180) / 2 =
      73.8782 * Real.pi / 360 := by
    rw [show ((-0.1278) - (-74.0060) : ℝ) = 73.8782 from by norm_num]
    ring
  have hDeq : travel.Distance 40.7128 (-74.0060) 51.5074 (-0.1278) =
      2 * 6371 * Real.arcsin (Real.sqrt v) := by
    simp only [travel.Distance]
    rw [e1, e2, ← hv]
  rw [hDeq]
  constructor
  · linarith only [harc_lo]
  · linarith only [harc_hi]

def nycA : models.Login := ⟨"alice", 1000, "uuid-nyc", "1.2.3.4", 40.7128, -74.0060, 0⟩

def lonB : models.Login := ⟨"alice", 1060, "uuid-lon", "5.6.7.8", 51.5074, -0.1278, 0⟩

/-- C4: for the concrete New York login (t=1000) and London login (t=1060) of
user "alice", the haversine distance is about 5570 km (proved within
[5550, 5590]) and the computed speed about 334,200 km/h (proved within
[333000, 335500]), so the verdict is suspicious. -/
theorem c4_newyork_london_speed :
    ((5550 : ℝ) ≤ travel.Distance 40.7128 (-74.0060) 51.5074 (-0.1278) ∧
      travel.Distance 40.7128 (-74.0060) 51.5074 (-0.1278) ≤ 5590) ∧
    (333000 ≤ getTravelSpeed nycA lonB ∧ getTravelSpeed nycA lonB ≤ 335500) ∧
    suspiciousFlag (getTravelSpeed nycA lonB) = true := by
  obtain ⟨hd1, hd2⟩ := Distance_ny_london_bounds
  have heq : getTravelSpeed nycA lonB =
      travel.Speed (travel.Distance 40.7128 (-74.0060) 51.5074 (-0.1278)) 1060 1000 :=
    rfl
  have hspeed : getTravelSpeed nycA lonB =
      ⌊travel.Distance 40.7128 (-74.0060) 51.5074 (-0.1278) * 60⌋ := by
    rw [heq]
    simp only [travel.Speed]
    rw [if_neg (by decide)]
    norm_num
    congr 1
    ring
  have hlo : (333000 : ℤ) ≤ getTravelSpeed nycA lonB := by
    rw [hspeed]
    rw [Int.le_floor]
    push_cast
    nlinarith [hd1]
  have hhi : getTravelSpeed nycA lonB ≤ 335500 := by
    rw [hspeed]
    have hfl := Int.floor_le
      (travel.Distance 40.7128 (-74.0060) 51.5074 (-0.1278) * 60)
    have : (⌊travel.Distance 40.7128 (-74.0060) 51.5074 (-0.1278) * 60⌋ : ℝ) ≤
        335500 := by nlinarith [hd2]
    exact_mod_cast this
  refine ⟨⟨hd1, hd2⟩, ⟨hlo, hhi⟩, ?_⟩
  simp only [suspiciousFlag, decide_eq_true_eq]
  omega
